import Mathlib

/-!
Shallow embedding of gPodder's youtube-dl extension
(`share/gpodder/extensions/youtube-dl.py`) and proofs about its feed
filter/dedup engine, incremental sync engine, progress adapter, download
orchestrator repair step, date parsing and feed resolver loop.

Python dictionaries with a fixed set of optional keys are embedded as
structures with `Option` fields; `d.get(k, default)` becomes
`Option.getD`; Python sets become `Finset`/lists of seen keys; the lazy
generator consumed by `_process_entries` becomes a list together with an
explicit count of how many elements the loop consumed before stopping.
-/

namespace YoutubeDL

/-- One element of `ie_result['entries']` as used by the extension: a
youtube-dl info dict.  Only the keys the extension reads are modelled;
each is optional exactly as a Python `dict.get` access is (`id` is read
with `e['id']`, which the code only does on entries it accepted, so it is
kept total here).  `guid` starts absent and is assigned by
`_process_entries` (`e['guid'] = guid`). -/
structure Entry where
  /-- the `_type` key; `e.get('_type', 'video')` -/
  type_ : Option String := none
  /-- the `ie_key` key -/
  ie_key : Option String := none
  /-- the `id` key -/
  id : String := ""
  /-- the `title` key (only logged) -/
  title : Option String := none
  /-- the `guid` key, written by `_process_entries` -/
  guid : Option String := none
  /-- the `upload_date` key (YYYYMMDD string) -/
  upload_date : Option String := none
  deriving Repr, DecidableEq

/-- `video_guid(video_id)`: `'yt:video:{}'.format(video_id)`. -/
def video_guid (video_id : String) : String :=
  "yt:video:" ++ video_id

/-- The acceptance test of `_process_entries`:
`e.get('_type', 'video') == 'url' and e.get('ie_key') == 'Youtube'`. -/
def acceptable (e : Entry) : Bool :=
  (e.type_.getD "video") == "url" && e.ie_key == some "Youtube"

/-- The dict mutation `e['guid'] = guid` performed on accepted entries. -/
def stampGuid (e : Entry) : Entry :=
  { e with guid := some (video_guid e.id) }

/-- The loop body of `YoutubeFeed._process_entries`, recursing over the
remaining input.  `count` is `len(filtered_entries)` so far and `seen`
is `seen_guids`; the result is the list of entries appended from this
point on, paired with how many further input elements the loop consumed
(the Python input is a generator, so the consumption count is the
observable "how far was the producer pulled").  After each element the
code checks `len(filtered_entries) == self._max_episodes` and breaks. -/
def processGo (maxE : Nat) : List String → Nat → List Entry → List Entry × Nat
  | _, _, [] => ([], 0)
  | seen, count, e :: rest =>
    if acceptable e then
      let g := video_guid e.id
      if g ∈ seen then
        -- duplicate dropped; `filtered_entries` unchanged
        if count = maxE then ([], 1)
        else
          let r := processGo maxE seen count rest
          (r.1, r.2 + 1)
      else
        -- accepted: appended and guid recorded
        if count + 1 = maxE then ([stampGuid e], 1)
        else
          let r := processGo maxE (g :: seen) (count + 1) rest
          (stampGuid e :: r.1, r.2 + 1)
    else
      -- not a youtube video entry: dropped
      if count = maxE then ([], 1)
      else
        let r := processGo maxE seen count rest
        (r.1, r.2 + 1)

/-- `YoutubeFeed._process_entries(entries)` with `self._max_episodes = maxE`:
returns the filtered entry list and the number of input elements consumed. -/
def process_entries (maxE : Nat) (entries : List Entry) : List Entry × Nat :=
  processGo maxE [] 0 entries

/-- The filtered list never grows beyond `maxE` accepted entries once the
running count is below the cap: the loop breaks the moment
`len(filtered_entries)` reaches `max_episodes`. -/
theorem processGo_length_le (maxE : Nat) :
    ∀ (l : List Entry) (seen : List String) (count : Nat), count < maxE →
      (processGo maxE seen count l).1.length + count ≤ maxE := by
  intro l
  induction l with
  | nil =>
    intro seen count h
    simpa [processGo] using Nat.le_of_lt h
  | cons e rest ih =>
    intro seen count h
    simp only [processGo]
    cases ha : acceptable e with
    | false =>
      simp only [ha, Bool.false_eq_true, if_false]
      have hne : ¬ count = maxE := Nat.ne_of_lt h
      simp only [hne, if_false]
      exact ih seen count h
    | true =>
      simp only [ha, if_true]
      by_cases hg : video_guid e.id ∈ seen
      · simp only [hg, if_true]
        have hne : ¬ count = maxE := Nat.ne_of_lt h
        simp only [hne, if_false]
        exact ih seen count h
      · simp only [hg, if_false]
        by_cases h1 : count + 1 = maxE
        · simp only [h1, if_true, List.length_singleton]
          omega
        · simp only [h1, if_false, List.length_cons]
          have h1' : count + 1 < maxE := Nat.lt_of_le_of_ne h h1
          have := ih (video_guid e.id :: seen) (count + 1) h1'
          omega

/-- Once the loop has filled the filtered list up to the cap it has broken
out, so any further input is never consumed: the run on `l ++ s` is
literally the run on `l`, output and consumption count alike. -/
theorem processGo_append_of_full (maxE : Nat) :
    ∀ (l s : List Entry) (seen : List String) (count : Nat), count < maxE →
      (processGo maxE seen count l).1.length + count = maxE →
      processGo maxE seen count (l ++ s) = processGo maxE seen count l := by
  intro l
  induction l with
  | nil =>
    intro s seen count h hfull
    simp only [processGo, List.length_nil] at hfull
    omega
  | cons e rest ih =>
    intro s seen count h hfull
    simp only [List.cons_append, processGo] at hfull ⊢
    cases ha : acceptable e with
    | false =>
      simp only [ha, Bool.false_eq_true, if_false] at hfull ⊢
      have hne : ¬ count = maxE := Nat.ne_of_lt h
      simp only [hne, if_false] at hfull ⊢
      simp only [List.append_eq]
      rw [ih s seen count h hfull]
    | true =>
      simp only [ha, if_true] at hfull ⊢
      by_cases hg : video_guid e.id ∈ seen
      · simp only [hg, if_true] at hfull ⊢
        have hne : ¬ count = maxE := Nat.ne_of_lt h
        simp only [hne, if_false] at hfull ⊢
        simp only [List.append_eq]
        rw [ih s seen count h hfull]
      · simp only [hg, if_false] at hfull ⊢
        by_cases h1 : count + 1 = maxE
        · simp only [h1, if_true]
        · simp only [h1, if_false, List.length_cons] at hfull ⊢
          have h1' : count + 1 < maxE := Nat.lt_of_le_of_ne h h1
          have hfull' :
              (processGo maxE (video_guid e.id :: seen) (count + 1) rest).1.length
                + (count + 1) = maxE := by omega
          simp only [List.append_eq]
          rw [ih s (video_guid e.id :: seen) (count + 1) h1' hfull']

/-- Every emitted entry derives a guid not yet in `seen_guids`, and it is
the stamped form of the first acceptable input entry deriving that guid:
`_process_entries` keeps the first occurrence and drops later ones. -/
theorem processGo_first (maxE : Nat) :
    ∀ (l : List Entry) (seen : List String) (count : Nat),
      ∀ e' ∈ (processGo maxE seen count l).1,
        video_guid e'.id ∉ seen ∧
        ∃ e, l.find? (fun x => acceptable x && (video_guid x.id == video_guid e'.id)) = some e
             ∧ e' = stampGuid e := by
  intro l
  induction l with
  | nil =>
    intro seen count e' h
    simp [processGo] at h
  | cons e rest ih =>
    intro seen count e' h
    simp only [processGo] at h
    cases ha : acceptable e with
    | false =>
      simp only [ha, Bool.false_eq_true, if_false] at h
      by_cases hc : count = maxE
      · simp [hc] at h
      · simp only [hc, if_false] at h
        obtain ⟨hfresh, e₀, hfind, hstamp⟩ := ih seen count e' h
        refine ⟨hfresh, e₀, ?_, hstamp⟩
        rw [List.find?_cons_of_neg _ (by simp [ha]), hfind]
    | true =>
      simp only [ha, if_true] at h
      by_cases hg : video_guid e.id ∈ seen
      · simp only [hg, if_true] at h
        by_cases hc : count = maxE
        · simp [hc] at h
        · simp only [hc, if_false] at h
          obtain ⟨hfresh, e₀, hfind, hstamp⟩ := ih seen count e' h
          have hne : (video_guid e.id == video_guid e'.id) = false := by
            simp only [beq_eq_false_iff_ne, ne_eq]
            intro heq
            exact hfresh (heq ▸ hg)
          refine ⟨hfresh, e₀, ?_, hstamp⟩
          rw [List.find?_cons_of_neg _ (by simp [ha, hne]), hfind]
      · simp only [hg, if_false] at h
        by_cases hc : count + 1 = maxE
        · simp only [hc, if_true, List.mem_singleton] at h
          subst h
          refine ⟨hg, e, ?_, rfl⟩
          rw [List.find?_cons_of_pos _ (by simp [ha, stampGuid])]
        · simp only [hc, if_false, List.mem_cons] at h
          rcases h with h | h
          · subst h
            refine ⟨hg, e, ?_, rfl⟩
            rw [List.find?_cons_of_pos _ (by simp [ha, stampGuid])]
          · obtain ⟨hfresh, e₀, hfind, hstamp⟩ :=
              ih (video_guid e.id :: seen) (count + 1) e' h
            have hfresh' : video_guid e'.id ∉ seen := fun hmem =>
              hfresh (List.mem_cons_of_mem _ hmem)
            have hne : (video_guid e.id == video_guid e'.id) = false := by
              simp only [beq_eq_false_iff_ne, ne_eq]
              intro heq
              exact hfresh (heq ▸ List.mem_cons_self _ _)
            refine ⟨hfresh', e₀, ?_, hstamp⟩
            rw [List.find?_cons_of_neg _ (by simp [ha, hne]), hfind]

/-- The guids of the filtered output contain no duplicate. -/
theorem processGo_nodup (maxE : Nat) :
    ∀ (l : List Entry) (seen : List String) (count : Nat),
      ((processGo maxE seen count l).1.map (fun e => video_guid e.id)).Nodup := by
  intro l
  induction l with
  | nil => intro seen count; simp [processGo]
  | cons e rest ih =>
    intro seen count
    simp only [processGo]
    cases ha : acceptable e with
    | false =>
      simp only [ha, Bool.false_eq_true, if_false]
      by_cases hc : count = maxE
      · simp [hc]
      · simp only [hc, if_false]
        exact ih seen count
    | true =>
      simp only [ha, if_true]
      by_cases hg : video_guid e.id ∈ seen
      · simp only [hg, if_true]
        by_cases hc : count = maxE
        · simp [hc]
        · simp only [hc, if_false]
          exact ih seen count
      · simp only [hg, if_false]
        by_cases hc : count + 1 = maxE
        · simp [hc]
        · simp only [hc, if_false, List.map_cons, List.nodup_cons]
          refine ⟨?_, ih (video_guid e.id :: seen) (count + 1)⟩
          intro hmem
          rw [List.mem_map] at hmem
          obtain ⟨e'', hmem'', heq''⟩ := hmem
          have := (processGo_first maxE rest (video_guid e.id :: seen) (count + 1)
            e'' hmem'').1
          have hid : video_guid (stampGuid e).id = video_guid e.id := rfl
          rw [hid] at heq''
          exact this (heq'' ▸ List.mem_cons_self _ _)

/-- The filtered output is a sublist (order preserved, nothing reordered)
of the input with accepted entries carrying their stamped guid. -/
theorem processGo_sublist (maxE : Nat) :
    ∀ (l : List Entry) (seen : List String) (count : Nat),
      List.Sublist (processGo maxE seen count l).1
        (l.map (fun e => if acceptable e then stampGuid e else e)) := by
  intro l
  induction l with
  | nil => intro seen count; simp [processGo]
  | cons e rest ih =>
    intro seen count
    simp only [processGo, List.map_cons]
    cases ha : acceptable e with
    | false =>
      simp only [ha, Bool.false_eq_true, if_false]
      by_cases hc : count = maxE
      · simp [hc]
      · simp only [hc, if_false]
        exact (ih seen count).cons _
    | true =>
      simp only [ha, if_true]
      by_cases hg : video_guid e.id ∈ seen
      · simp only [hg, if_true]
        by_cases hc : count = maxE
        · simp [hc]
        · simp only [hc, if_false]
          exact (ih seen count).cons _
      · simp only [hg, if_false]
        by_cases hc : count + 1 = maxE
        · simp only [hc, if_true]
          exact (List.nil_sublist _).cons₂ _
        · simp only [hc, if_false]
          exact (ih (video_guid e.id :: seen) (count + 1)).cons₂ _

/-- C2: `_process_entries` never emits two entries with the same GUID; the
output is an order-preserving selection from the (guid-stamped) input; and
every emitted entry is the first acceptable input entry deriving its GUID
(first occurrence kept, later duplicates dropped). -/
theorem process_entries_dedup (maxE : Nat) (entries : List Entry) :
    ((process_entries maxE entries).1.map (fun e => video_guid e.id)).Nodup ∧
    List.Sublist (process_entries maxE entries).1
      (entries.map (fun e => if acceptable e then stampGuid e else e)) ∧
    ∀ e' ∈ (process_entries maxE entries).1,
      ∃ e, entries.find?
            (fun x => acceptable x && (video_guid x.id == video_guid e'.id)) = some e
           ∧ e' = stampGuid e :=
  ⟨processGo_nodup maxE entries [] 0,
   processGo_sublist maxE entries [] 0,
   fun e' h => ((processGo_first maxE entries [] 0 e' h).2 : _)⟩

/-- Witness for C2 at a concrete input: a listing where the same video id
appears twice around an unrelated entry. -/
theorem process_entries_dedup_witness :
    (((process_entries 0
        [{ type_ := some "url", ie_key := some "Youtube", id := "a" },
         { type_ := some "url", ie_key := some "Youtube", id := "b" },
         { type_ := some "url", ie_key := some "Youtube", id := "a" }]).1.map
        (fun e => video_guid e.id)).Nodup) ∧
    (∃ e, [{ type_ := some "url", ie_key := some "Youtube", id := "a" },
           { type_ := some "url", ie_key := some "Youtube", id := "b" },
           { type_ := some "url", ie_key := some "Youtube", id := "a" }].find?
            (fun x => acceptable x &&
              (video_guid x.id ==
                video_guid ({ type_ := some "url", ie_key := some "Youtube", id := "a",
                              guid := some "yt:video:a" } : Entry).id)) = some e
          ∧ ({ type_ := some "url", ie_key := some "Youtube", id := "a",
               guid := some "yt:video:a" } : Entry) = stampGuid e) := by
  have h := process_entries_dedup 0
    [{ type_ := some "url", ie_key := some "Youtube", id := "a" },
     { type_ := some "url", ie_key := some "Youtube", id := "b" },
     { type_ := some "url", ie_key := some "Youtube", id := "a" }]
  exact ⟨h.1, h.2.2 _ (by decide)⟩

/-- C1: for every input sequence and every `max_episodes = N > 0`,
`YoutubeFeed._process_entries` emits at most N filtered entries, and the
moment it has emitted the Nth it has stopped consuming the input: feeding
any further elements after that point changes neither the output nor the
number of elements consumed. -/
theorem process_entries_cap (maxE : Nat) (h : 0 < maxE)
    (entries more : List Entry) :
    (process_entries maxE entries).1.length ≤ maxE ∧
    ((process_entries maxE entries).1.length = maxE →
      process_entries maxE (entries ++ more) = process_entries maxE entries) := by
  constructor
  · simpa using processGo_length_le maxE entries [] 0 h
  · intro hfull
    simpa [process_entries] using
      processGo_append_of_full maxE entries more [] 0 h (by simpa using hfull)

/-- Witness for C1 at a concrete input: with `max_episodes = 1` and one
accepted entry, a further pending entry is never consumed. -/
theorem process_entries_cap_witness :
    (process_entries 1 [{ type_ := some "url", ie_key := some "Youtube", id := "a" }]).1.length ≤ 1 ∧
    process_entries 1
        ([{ type_ := some "url", ie_key := some "Youtube", id := "a" }] ++
         [{ type_ := some "url", ie_key := some "Youtube", id := "b" }])
      = process_entries 1 [{ type_ := some "url", ie_key := some "Youtube", id := "a" }] := by
  have h := process_entries_cap 1 (by decide)
    [{ type_ := some "url", ie_key := some "Youtube", id := "a" }]
    [{ type_ := some "url", ie_key := some "Youtube", id := "b" }]
  exact ⟨h.1, h.2 (by decide)⟩

/-- C3: with `max_episodes == 0` the loop's break test
`len(filtered_entries) == self._max_episodes` already holds after the
first element whenever that element is rejected, so the "unlimited" mode
does NOT consume the whole input.  Concretely: a listing whose first
element is not a youtube video followed by a perfectly acceptable video
yields the empty output after consuming only one of the two elements —
the acceptable video is never examined, contradicting the documented
"0 = unlimited, consume the whole sequence" policy. -/
theorem process_entries_zero_cap_bug :
    acceptable { type_ := some "playlist", id := "x" } = false ∧
    acceptable { type_ := some "url", ie_key := some "Youtube", id := "a" } = true ∧
    process_entries 0
      [{ type_ := some "playlist", id := "x" },
       { type_ := some "url", ie_key := some "Youtube", id := "a" }]
      = ([], 1) := by decide

/-- The feed state `YoutubeFeed` carries into `get_new_episodes`:
`self._ie_result['entries']` and `self._max_episodes`. -/
structure FeedState where
  entries : List Entry
  max_episodes : Nat
  deriving Repr, DecidableEq

/-- The observable outcome of one `YoutubeFeed.get_new_episodes` call:
the guids of the episodes created and saved (in order), the returned
`all_seen_guids` set, the argument lists of the `refresh_entries`
(backend enrichment) invocations made during the call, and the feed
state left behind (the call overwrites `self._ie_result['entries']`). -/
structure SyncResult where
  episodes : List String
  all_guids : Finset String
  enrich_calls : List (List Entry)
  feed_after : FeedState
  deriving DecidableEq

/-- The dict read `e['guid']`; entries reaching `get_new_episodes` went
through `_process_entries`, which always assigned the key, so the `""`
default of this total embedding is never exercised on real feed states. -/
def entryGuid (e : Entry) : String :=
  e.guid.getD ""

/-- The trimming comprehension of `get_new_episodes`:
`[e for i, e in enumerate(entries) if not self._max_episodes or i < self._max_episodes]`. -/
def trimEntries (fs : FeedState) : List Entry :=
  ((fs.entries.enum).filter
      (fun p => fs.max_episodes == 0 || decide (p.1 < fs.max_episodes))).map Prod.snd

/-- `YoutubeFeed.get_new_episodes(channel, existing_guids)`.  The backend
enrichment `refresh_entries` mutates each entry's metadata fields in
place via the external youtube-dl library but never its identity (`id`),
so it is embedded as the identity on the entry list while the call and
its argument are recorded in `enrich_calls`.  Episode construction
(`episode_factory` + `save`) is recorded by the guid
`video_guid(en['id'])` of each created episode, in creation order. -/
def get_new_episodes (fs : FeedState) (existing_guids : Finset String) : SyncResult :=
  let entries := trimEntries fs
  let all_seen_guids : Finset String := (entries.map entryGuid).toFinset
  let new_entries := entries.filter (fun e => decide (entryGuid e ∉ existing_guids))
  { episodes := new_entries.map (fun en => video_guid en.id)
    all_guids := all_seen_guids
    enrich_calls := [new_entries]
    feed_after := { fs with entries := new_entries } }

/-- The trimming comprehension keeps everything when `max_episodes == 0`
and the first `max_episodes` elements otherwise. -/
theorem trimEntries_go (m : Nat) (hm : 0 < m) :
    ∀ (l : List Entry) (n : Nat),
      ((List.enumFrom n l).filter (fun p => m == 0 || decide (p.1 < m))).map Prod.snd
        = l.take (m - n) := by
  intro l
  induction l with
  | nil => intro n; simp
  | cons a as ih =>
    intro n
    have hm' : (m == 0) = false := by
      simp only [beq_eq_false_iff_ne, ne_eq]
      omega
    by_cases h : n < m
    · rw [show List.enumFrom n (a :: as) = (n, a) :: List.enumFrom (n + 1) as from rfl,
        List.filter_cons_of_pos (by simp [h]), List.map_cons, ih (n + 1),
        show m - n = (m - (n + 1)) + 1 by omega, List.take_succ_cons]
    · rw [show List.enumFrom n (a :: as) = (n, a) :: List.enumFrom (n + 1) as from rfl,
        List.filter_cons_of_neg (by simp [hm', h]), ih (n + 1),
        show m - (n + 1) = 0 by omega, show m - n = 0 by omega, List.take_zero,
        List.take_zero]

/-- `trimEntries` is "first `max_episodes` entries when the cap is
positive, all entries when the cap is 0". -/
theorem trimEntries_eq (fs : FeedState) :
    trimEntries fs
      = if fs.max_episodes = 0 then fs.entries else fs.entries.take fs.max_episodes := by
  unfold trimEntries
  by_cases h : fs.max_episodes = 0
  · simp [h, List.enum_map_snd]
  · rw [if_neg h, show fs.entries.enum = List.enumFrom 0 fs.entries from rfl,
      trimEntries_go fs.max_episodes (Nat.pos_of_ne_zero h) fs.entries 0,
      Nat.sub_zero]

/-- C4: `get_new_episodes` trims to the first `max_episodes` entries
(everything when the cap is 0), returns as `all_guids` the guid set of
the whole trimmed list, computes the new entries as exactly the trimmed
entries whose guid is not already known (in order), and invokes backend
enrichment exactly once, with exactly those new entries.  The final
conjunct instantiates this at the claim's shape: trimmed guids
`[A, B, C, D]`, known set `{A, B}`, giving new entries `[C, D]` and
`all_guids = {A, B, C, D}`. -/
theorem get_new_episodes_sync (fs : FeedState) (existing_guids : Finset String) :
    (trimEntries fs
      = if fs.max_episodes = 0 then fs.entries else fs.entries.take fs.max_episodes) ∧
    (get_new_episodes fs existing_guids).all_guids
      = ((trimEntries fs).map entryGuid).toFinset ∧
    (get_new_episodes fs existing_guids).feed_after.entries
      = (trimEntries fs).filter (fun e => decide (entryGuid e ∉ existing_guids)) ∧
    (get_new_episodes fs existing_guids).enrich_calls
      = [(get_new_episodes fs existing_guids).feed_after.entries] ∧
    (get_new_episodes
        { entries :=
            [{ id := "A", guid := some (video_guid "A") },
             { id := "B", guid := some (video_guid "B") },
             { id := "C", guid := some (video_guid "C") },
             { id := "D", guid := some (video_guid "D") }],
          max_episodes := 0 }
        {video_guid "A", video_guid "B"}
      = { episodes := [video_guid "C", video_guid "D"],
          all_guids := {video_guid "A", video_guid "B", video_guid "C", video_guid "D"},
          enrich_calls :=
            [[{ id := "C", guid := some (video_guid "C") },
              { id := "D", guid := some (video_guid "D") }]],
          feed_after :=
            { entries :=
                [{ id := "C", guid := some (video_guid "C") },
                 { id := "D", guid := some (video_guid "D") }],
              max_episodes := 0 } }) :=
  ⟨trimEntries_eq fs, rfl, rfl, rfl, by decide⟩

/-- Entries left on the feed by `get_new_episodes` always fit the cap, so
the next call's trimming keeps them all. -/
theorem trim_after_sync (fs : FeedState) (g : Finset String) :
    trimEntries ((get_new_episodes fs g).feed_after)
      = (get_new_episodes fs g).feed_after.entries := by
  rw [trimEntries_eq,
    show (get_new_episodes fs g).feed_after.max_episodes = fs.max_episodes from rfl]
  by_cases h : fs.max_episodes = 0
  · rw [if_pos h]
  · rw [if_neg h]
    apply List.take_of_length_le
    show ((trimEntries fs).filter _).length ≤ fs.max_episodes
    calc ((trimEntries fs).filter
            (fun e => decide (entryGuid e ∉ g))).length
        ≤ (trimEntries fs).length := List.length_filter_le _ _
      _ ≤ fs.max_episodes := by
          rw [trimEntries_eq, if_neg h, List.length_take]
          exact Nat.min_le_left _ _

/-- Filtering out already-known guids is idempotent. -/
theorem filter_unknown_idem (l : List Entry) (g : Finset String) :
    (l.filter (fun e => decide (entryGuid e ∉ g))).filter
        (fun e => decide (entryGuid e ∉ g))
      = l.filter (fun e => decide (entryGuid e ∉ g)) := by
  rw [List.filter_filter]
  simp

/-- C10: `get_new_episodes` overwrites the feed's entry list with only the
entries that were new for this call, so it is not idempotent: an
immediate second call with the same `existing_guids` reports as
`all_guids` only the guids of the first call's new entries (the
previously-known guids are gone from the feed object), creates and saves
episodes for exactly those new entries a second time, and re-submits them
for enrichment. -/
theorem get_new_episodes_not_idempotent (fs : FeedState) (existing_guids : Finset String) :
    (get_new_episodes fs existing_guids).feed_after.entries
      = (trimEntries fs).filter (fun e => decide (entryGuid e ∉ existing_guids)) ∧
    (get_new_episodes (get_new_episodes fs existing_guids).feed_after
        existing_guids).all_guids
      = (((get_new_episodes fs existing_guids).feed_after.entries).map entryGuid).toFinset ∧
    (get_new_episodes (get_new_episodes fs existing_guids).feed_after
        existing_guids).episodes
      = (get_new_episodes fs existing_guids).episodes ∧
    (get_new_episodes (get_new_episodes fs existing_guids).feed_after
        existing_guids).enrich_calls
      = [(get_new_episodes fs existing_guids).feed_after.entries] := by
  have ht := trim_after_sync fs existing_guids
  refine ⟨rfl, ?_, ?_, ?_⟩
  · show ((trimEntries ((get_new_episodes fs existing_guids).feed_after)).map
        entryGuid).toFinset = _
    rw [ht]
  · show ((trimEntries ((get_new_episodes fs existing_guids).feed_after)).filter
        (fun e => decide (entryGuid e ∉ existing_guids))).map (fun en => video_guid en.id)
      = _
    rw [ht]
    show (((trimEntries fs).filter (fun e => decide (entryGuid e ∉ existing_guids))).filter
        (fun e => decide (entryGuid e ∉ existing_guids))).map (fun en => video_guid en.id)
      = _
    rw [filter_unknown_idem]
    rfl
  · show [(trimEntries ((get_new_episodes fs existing_guids).feed_after)).filter
        (fun e => decide (entryGuid e ∉ existing_guids))]
      = _
    rw [ht]
    show [((trimEntries fs).filter (fun e => decide (entryGuid e ∉ existing_guids))).filter
        (fun e => decide (entryGuid e ∉ existing_guids))]
      = _
    rw [filter_unknown_idem]
    rfl

/-- One youtube-dl progress-hook event dict `d` as read by
`YoutubeCustomDownload._my_hook`: the `status` string, `d['downloaded_bytes']`
and the optional `d.get('total_bytes')` / `d.get('total_bytes_estimate')`. -/
structure HookEvent where
  status : String
  downloaded_bytes : Nat := 0
  total_bytes : Option Nat := none
  total_bytes_estimate : Option Nat := none
  deriving Repr, DecidableEq

/-- Python's `x or y` for an optional numeric `x`: both `None` and `0`
are falsy and fall through to `y`. -/
def pyOr (a : Option Nat) (b : Nat) : Nat :=
  match a with
  | some n => if n = 0 then b else n
  | none => b

/-- `YoutubeCustomDownload._my_hook(d)` with `self._reporthook` set (as
`retrieve_resume` always sets it before fetching): takes the current
`self._prev_dl_bytes` and the event, returns the updated counter and the
list of `reporthook(bytes_done, fragment, bytes_total)` invocations made
(empty for `error` and unknown statuses, which are only logged). -/
def my_hook (prev_dl_bytes : Nat) (d : HookEvent) : Nat × List (Nat × Nat × Nat) :=
  if d.status == "downloading" then
    let dl_bytes := d.downloaded_bytes
    let total_bytes := pyOr d.total_bytes (pyOr d.total_bytes_estimate 0)
    (prev_dl_bytes, [(prev_dl_bytes + dl_bytes, 1, prev_dl_bytes + total_bytes)])
  else if d.status == "finished" then
    let prev' := prev_dl_bytes + d.downloaded_bytes
    (prev', [(prev', 1, prev')])
  else
    (prev_dl_bytes, [])

/-- Feeding a sequence of hook events through `_my_hook`, starting from a
given `self._prev_dl_bytes` (0 at `YoutubeCustomDownload.__init__`),
collecting every reporthook invocation in order. -/
def runHook (prev : Nat) : List HookEvent → Nat × List (Nat × Nat × Nat)
  | [] => (prev, [])
  | d :: rest =>
    let r := my_hook prev d
    let r' := runHook r.1 rest
    (r'.1, r.2 ++ r'.2)

/-- C5: from a fresh adapter (`prev_dl_bytes = 0`), the event sequence
`downloading(500, total=1000)`, `finished(1000)`, `downloading(200,
total=2000)` invokes the host callback exactly three times, with
`(500,1,1000)`, `(1000,1,1000)`, `(1200,1,3000)` — totals accumulate
across the fragment boundary; and on `downloading` events the reported
total falls back to `total_bytes_estimate` and then to 0 when
`total_bytes` is absent. -/
theorem my_hook_sequence :
    (runHook 0
      [{ status := "downloading", downloaded_bytes := 500, total_bytes := some 1000 },
       { status := "finished", downloaded_bytes := 1000 },
       { status := "downloading", downloaded_bytes := 200, total_bytes := some 2000 }]).2
      = [(500, 1, 1000), (1000, 1, 1000), (1200, 1, 3000)] ∧
    (my_hook 0 { status := "downloading", downloaded_bytes := 300,
                 total_bytes := none, total_bytes_estimate := some 700 }).2
      = [(300, 1, 700)] ∧
    (my_hook 0 { status := "downloading", downloaded_bytes := 300,
                 total_bytes := none, total_bytes_estimate := none }).2
      = [(300, 1, 0)] := by decide

/-- The dict returned by `fetch_video` as read by `retrieve_resume`:
`res['ext']` and `res.get('url', ...)`. -/
structure FetchResult where
  ext : Option String := none
  url : Option String := none
  deriving Repr, DecidableEq

/-- What `retrieve_resume` leaves behind: the file system after the
output-path repair, the derived headers and the returned final url. -/
structure RetrieveOutcome where
  fs : String → Option Nat
  headers : List (String × String)
  final_url : String

/-- `YoutubeCustomDownload.retrieve_resume(tempname)` after the backend
fetch produced `res`: the file system is a partial map from path to file
size (`none` = no file).  `os.stat` on a missing path raises
(`.error`), `os.path.isfile` is an existence test, and the
`os.remove(tempname); os.rename(tempname_with_ext, tempname)` pair moves
the extension-suffixed file onto `tempname`.  The external
`mimetype_from_extension` utility is a parameter. -/
def retrieve_resume (mimetype_from_extension : String → Option String)
    (url : String) (fs : String → Option Nat) (tempname : String)
    (res : FetchResult) : Except String RetrieveOutcome :=
  match res.ext with
  | none => .ok ⟨fs, [], res.url.getD url⟩
  | some ext =>
    let dot_ext := "." ++ ext
    let headers :=
      match mimetype_from_extension dot_ext with
      | some t => [("content-type", t)]
      | none => []
    match fs tempname with
    | none => .error "FileNotFoundError"
    | some sz =>
      if sz = 0 then
        let tempname_with_ext := tempname ++ dot_ext
        match fs tempname_with_ext with
        | some sz2 =>
          .ok ⟨fun p => if p = tempname then some sz2
                else if p = tempname_with_ext then none else fs p,
              headers, res.url.getD url⟩
        | none => .ok ⟨fs, headers, res.url.getD url⟩
      else .ok ⟨fs, headers, res.url.getD url⟩

/-- C8: if the backend reported an extension, the file at the requested
path has zero size and a nonempty file sits at `path + "." + ext`, then
`retrieve_resume` removes the empty file and renames the suffixed file
onto the requested path before returning: afterwards the requested path
holds the nonempty file and the suffixed path no longer exists. -/
theorem retrieve_resume_repair (mimetype_from_extension : String → Option String)
    (url tempname ext : String) (fs : String → Option Nat)
    (res_url : Option String) (n : Nat)
    (h0 : fs tempname = some 0)
    (h1 : fs (tempname ++ ("." ++ ext)) = some n) (hn : 0 < n) :
    ∃ out, retrieve_resume mimetype_from_extension url fs tempname
        { ext := some ext, url := res_url } = .ok out ∧
      out.fs tempname = some n ∧
      out.fs (tempname ++ ("." ++ ext)) = none := by
  have hne : tempname ++ ("." ++ ext) ≠ tempname := by
    intro heq
    have hlen := congrArg String.length heq
    rw [String.length_append, String.length_append] at hlen
    have hd : ".".length = 1 := rfl
    omega
  have hstep : retrieve_resume mimetype_from_extension url fs tempname
        { ext := some ext, url := res_url }
      = .ok ⟨fun p => if p = tempname then some n
              else if p = tempname ++ ("." ++ ext) then none else fs p,
            (match mimetype_from_extension ("." ++ ext) with
              | some t => [("content-type", t)]
              | none => []),
            res_url.getD url⟩ := by
    unfold retrieve_resume
    rw [h0]
    simp only [h1]
    simp
  exact ⟨_, hstep, by simp, by simp [hne]⟩

/-- Witness for C8 at a concrete file system: empty file at `"f"`,
5-byte file at `"f.mp4"`. -/
theorem retrieve_resume_repair_witness :
    ∃ out, retrieve_resume (fun _ => none) "u"
        (fun p => if p = "f" then some 0 else if p = "f.mp4" then some 5 else none)
        "f" { ext := some "mp4", url := none } = .ok out ∧
      out.fs "f" = some 5 ∧
      out.fs ("f" ++ ("." ++ "mp4")) = none := by
  have h := retrieve_resume_repair (fun _ => none) "u" "f" "mp4"
    (fun p => if p = "f" then some 0 else if p = "f.mp4" then some 5 else none)
    none 5 (by decide) (by decide) (by decide)
  exact h

/-- The numeric value of a digit string, as `strptime` reads year, month
and day fields. -/
def digitsToNat (cs : List Char) : Nat :=
  cs.foldl (fun acc c => acc * 10 + (c.toNat - 48)) 0

/-- ASCII digit test. -/
def isDigitChar (c : Char) : Bool :=
  decide (48 ≤ c.toNat) && decide (c.toNat ≤ 57)

/-- Modelled after the external CPython `time.strptime(s, "%Y%m%d")` at
the precision the youtube-dl API contract gives it (8-digit dates like
`20170920`): exactly 8 ASCII digits whose month part is 01-12 and day
part is 01-31. -/
def matchesYMD (s : String) : Bool :=
  let cs := s.toList
  cs.length == 8 && cs.all isDigitChar &&
    (let m := digitsToNat ((cs.drop 4).take 2)
     let d := digitsToNat (cs.drop 6)
     decide (1 ≤ m) && decide (m ≤ 12) && decide (1 ≤ d) && decide (d ≤ 31))

/-- The `(tm_year, tm_mon, tm_mday)` fields `time.strptime(s, "%Y%m%d")`
fills, or the propagated `ValueError`. -/
def strptimeYMD (s : String) : Except String (Nat × Nat × Nat) :=
  if matchesYMD s then
    let cs := s.toList
    .ok (digitsToNat (cs.take 4), digitsToNat ((cs.drop 4).take 2),
         digitsToNat (cs.drop 6))
  else .error "ValueError"

/-- Days from the Unix epoch to the civil date `y-m-d` (proleptic
Gregorian). -/
def daysFromCivil (y m d : Nat) : Int :=
  let yi : Int := if m ≤ 2 then (y : Int) - 1 else (y : Int)
  let era : Int := (if 0 ≤ yi then yi else yi - 399) / 400
  let yoe : Int := yi - era * 400
  let mp : Int := ((m : Int) + 9) % 12
  let doy : Int := (153 * mp + 2) / 5 + (d : Int) - 1
  let doe : Int := yoe * 365 + yoe / 4 - yoe / 100 + doy
  era * 146097 + doe - 719468

/-- Modelled after the external CPython `time.mktime` on a midnight
struct: the Unix timestamp of `y-m-d 00:00:00` local time, where
`tzOff` is the signed number of seconds mktime adds for the local
timezone of the host (0 for UTC). -/
def mktimeLocal (tzOff : Int) (y m d : Nat) : Int :=
  daysFromCivil y m d * 86400 + tzOff

/-- `youtube_parsedate(s)`: `if s: return time.mktime(time.strptime(s,
"%Y%m%d"))` — `None` and the empty string are falsy and yield 0; a parse
failure propagates as `.error`. -/
def youtube_parsedate (tzOff : Int) (s : Option String) : Except String Int :=
  match s with
  | none => .ok 0
  | some str =>
    if str = "" then .ok 0
    else
      match strptimeYMD str with
      | .ok (y, m, d) => .ok (mktimeLocal tzOff y m d)
      | .error err => .error err

/-- C9: for every local timezone, `youtube_parsedate "20170920"` is the
Unix timestamp of 2017-09-20 00:00:00 local time (day 17429 of the
epoch), the empty string and `None` yield 0, and every non-empty string
not matching the `YYYYMMDD` format propagates the parse error. -/
theorem youtube_parsedate_spec (tzOff : Int) (s : String)
    (hne : s ≠ "") (hbad : matchesYMD s = false) :
    youtube_parsedate tzOff (some "20170920") = .ok (17429 * 86400 + tzOff) ∧
    youtube_parsedate tzOff (some "") = .ok 0 ∧
    youtube_parsedate tzOff none = .ok 0 ∧
    youtube_parsedate tzOff (some s) = .error "ValueError" := by
  refine ⟨?_, rfl, rfl, ?_⟩
  · have hd : daysFromCivil 2017 9 20 = 17429 := by decide
    have hp : strptimeYMD "20170920" = .ok (2017, 9, 20) := rfl
    simp [youtube_parsedate, hp, mktimeLocal, hd]
  · simp only [youtube_parsedate, if_neg hne, strptimeYMD, hbad,
      Bool.false_eq_true, if_false]

/-- Witness for C9 at a concrete non-matching input. -/
theorem youtube_parsedate_spec_witness :
    youtube_parsedate 0 (some "20170920") = .ok (17429 * 86400 + 0) ∧
    youtube_parsedate 0 (some "") = .ok 0 ∧
    youtube_parsedate 0 none = .ok 0 ∧
    youtube_parsedate 0 (some "2017-09-20") = .error "ValueError" :=
  youtube_parsedate_spec 0 "2017-09-20" (by decide) (by decide)

/-- A youtube-dl extraction result as handled by `gPodderYoutubeDL.refresh`:
only the keys the resolver loop reads. -/
structure IEResult where
  /-- the `_type` key -/
  type_ : Option String := none
  /-- the `url` key (the embedded URL for redirect-like results) -/
  url : Option String := none
  /-- the `ie_key` key (extractor hint) -/
  ie_key : Option String := none
  /-- the `entries` key (present on playlist-like results) -/
  entries : List Entry := []
  deriving DecidableEq

/-- `gPodderYoutubeDL.refresh.extract_type(ie_result)`: reads
`ie_result.get('_type', 'video')`, raises for anything outside
`('url', 'playlist', 'multi_video')`, and reports whether the result is
playlist-like. -/
def extract_type (ie_result : IEResult) : Except String (String × Bool) :=
  let result_type := ie_result.type_.getD "video"
  if result_type = "url" ∨ result_type = "playlist" ∨ result_type = "multi_video" then
    .ok (result_type, decide (result_type = "playlist" ∨ result_type = "multi_video"))
  else
    .error ("Unsuported result_type: " ++ result_type)

/-- One body of `refresh`'s `while not has_playlist` loop: sanitize the
embedded URL for `url`/`url_transparent` results, then re-extract for
`url` results with the current node's `ie_key` (the external
`ydl.extract_info(..., process=False)` backend and `sanitize_url` are
parameters; the dict reads `ie_result['url']` are embedded through
`Option`). -/
def refreshStep (extract : String → Option String → IEResult)
    (sanitize : String → String) (result_type : String)
    (ie_result : IEResult) : IEResult :=
  let r1 :=
    if result_type = "url" ∨ result_type = "url_transparent" then
      { ie_result with url := ie_result.url.map sanitize }
    else ie_result
  if result_type = "url" then extract (r1.url.getD "") r1.ie_key else r1

/-- The `while not has_playlist` loop of `gPodderYoutubeDL.refresh`,
with explicit fuel standing for the unbounded Python `while` (the fuel
branch is only reached if the loop would spin forever). -/
def refreshLoop (extract : String → Option String → IEResult)
    (sanitize : String → String) (fuel : Nat) (ie_result : IEResult) :
    Except String IEResult :=
  match extract_type ie_result with
  | .error e => .error e
  | .ok (result_type, has_playlist) =>
    if has_playlist then .ok ie_result
    else
      match fuel with
      | 0 => .error "non-terminating extraction loop"
      | fuel' + 1 =>
        refreshLoop extract sanitize fuel'
          (refreshStep extract sanitize result_type ie_result)

/-- The resolution part of `gPodderYoutubeDL.refresh(url, ...)`: initial
unprocessed extraction, then the type-dispatch loop. -/
def refresh (extract : String → Option String → IEResult)
    (sanitize : String → String) (fuel : Nat) (url : String) :
    Except String IEResult :=
  refreshLoop extract sanitize fuel (extract url none)

/-- A failing `extract_type` aborts the loop with its error, at any fuel. -/
theorem refreshLoop_error (extract : String → Option String → IEResult)
    (sanitize : String → String) (f : Nat) (r : IEResult) (msg : String)
    (he : extract_type r = .error msg) :
    refreshLoop extract sanitize f r = .error msg := by
  rw [refreshLoop.eq_def, he]

/-- A playlist-like result terminates the loop, returning the tree. -/
theorem refreshLoop_playlist (extract : String → Option String → IEResult)
    (sanitize : String → String) (f : Nat) (r : IEResult) (rt : String)
    (he : extract_type r = .ok (rt, true)) :
    refreshLoop extract sanitize f r = .ok r := by
  rw [refreshLoop.eq_def, he]
  simp

/-- A non-playlist recognized result makes the loop take one step. -/
theorem refreshLoop_step (extract : String → Option String → IEResult)
    (sanitize : String → String) (fuel : Nat) (r : IEResult) (rt : String)
    (he : extract_type r = .ok (rt, false)) :
    refreshLoop extract sanitize (fuel + 1) r
      = refreshLoop extract sanitize fuel (refreshStep extract sanitize rt r) := by
  rw [refreshLoop.eq_def, he]
  simp

/-- C6 counterexample: a backend whose extraction chain is
`url_transparent → url_transparent → playlist` does NOT make `refresh`
return the playlist tree — `extract_type` rejects `url_transparent`
(it is outside `('url', 'playlist', 'multi_video')`), so resolution
aborts with an error on the very first result. -/
theorem refresh_url_transparent_aborts :
    refresh
      (fun u _ =>
        if u = "https://start" then
          { type_ := some "url_transparent", url := some "u1", ie_key := some "YoutubeTab" }
        else if u = "u1" then
          { type_ := some "url_transparent", url := some "u2", ie_key := some "YoutubeTab" }
        else { type_ := some "playlist", url := some "u2" })
      (fun s => s) 10 "https://start"
      = .error "Unsuported result_type: url_transparent" := rfl

/-- C6 amended: the resolver loop terminates and returns the playlist
tree for `url → url → playlist` chains — each `url` result is followed
by sanitizing its embedded URL and re-extracting with the current node's
`ie_key` — but a `url_transparent` result is NOT followed: it is outside
the recognized set and aborts resolution with
"Unsuported result_type: url_transparent" at any point of the loop. -/
theorem refresh_url_chain
    (extract : String → Option String → IEResult) (sanitize : String → String)
    (fuel : Nat) (url0 u1 u2 : String) (r0 r1 r2 rt : IEResult) (f : Nat)
    (h0 : extract url0 none = r0) (ht0 : r0.type_ = some "url")
    (hu0 : r0.url = some u1)
    (h1 : extract (sanitize u1) r0.ie_key = r1) (ht1 : r1.type_ = some "url")
    (hu1 : r1.url = some u2)
    (h2 : extract (sanitize u2) r1.ie_key = r2) (ht2 : r2.type_ = some "playlist")
    (hfuel : 2 ≤ fuel)
    (hrt : rt.type_ = some "url_transparent") :
    refresh extract sanitize fuel url0 = .ok r2 ∧
    refreshLoop extract sanitize f rt
      = .error "Unsuported result_type: url_transparent" := by
  constructor
  · obtain ⟨k, rfl⟩ : ∃ k, fuel = k + 2 := ⟨fuel - 2, by omega⟩
    have e0 : extract_type r0 = .ok ("url", false) := by simp [extract_type, ht0]
    have e1 : extract_type r1 = .ok ("url", false) := by simp [extract_type, ht1]
    have e2 : extract_type r2 = .ok ("playlist", true) := by simp [extract_type, ht2]
    have s0 : refreshStep extract sanitize "url" r0 = r1 := by
      simp [refreshStep, hu0, h1]
    have s1 : refreshStep extract sanitize "url" r1 = r2 := by
      simp [refreshStep, hu1, h2]
    show refreshLoop extract sanitize (k + 2) (extract url0 none) = .ok r2
    rw [h0, show k + 2 = (k + 1) + 1 from rfl,
      refreshLoop_step extract sanitize (k + 1) r0 "url" e0, s0,
      refreshLoop_step extract sanitize k r1 "url" e1, s1,
      refreshLoop_playlist extract sanitize k r2 "playlist" e2]
  · exact refreshLoop_error extract sanitize f rt _ (by simp [extract_type, hrt])

/-- Witness for the amended C6 at a concrete backend whose chain is
`url → url → playlist`. -/
theorem refresh_url_chain_witness :
    refresh
        (fun u _ =>
          if u = "https://start" then
            { type_ := some "url", url := some "u1", ie_key := some "YoutubeTab" }
          else if u = "u1" then
            { type_ := some "url", url := some "u2", ie_key := some "YoutubeTab" }
          else { type_ := some "playlist", url := some "u2" })
        (fun s => s) 2 "https://start"
      = .ok { type_ := some "playlist", url := some "u2" } ∧
    refreshLoop
        (fun u _ =>
          if u = "https://start" then
            { type_ := some "url", url := some "u1", ie_key := some "YoutubeTab" }
          else if u = "u1" then
            { type_ := some "url", url := some "u2", ie_key := some "YoutubeTab" }
          else { type_ := some "playlist", url := some "u2" })
        (fun s => s) 3 { type_ := some "url_transparent" }
      = .error "Unsuported result_type: url_transparent" :=
  refresh_url_chain
    (fun u _ =>
      if u = "https://start" then
        { type_ := some "url", url := some "u1", ie_key := some "YoutubeTab" }
      else if u = "u1" then
        { type_ := some "url", url := some "u2", ie_key := some "YoutubeTab" }
      else { type_ := some "playlist", url := some "u2" })
    (fun s => s) 2 "https://start" "u1" "u2"
    { type_ := some "url", url := some "u1", ie_key := some "YoutubeTab" }
    { type_ := some "url", url := some "u2", ie_key := some "YoutubeTab" }
    { type_ := some "playlist", url := some "u2" }
    { type_ := some "url_transparent" } 3
    (by decide) (by decide) (by decide) (by decide) (by decide) (by decide)
    (by decide) (by decide) (by decide) (by decide)

/-- C7 counterexample: a result with no `_type` key (defaulting to the
bare `video`) does NOT make the resolution loop terminate without error:
`extract_type` raises "Unsuported result_type: video", because `video`
is outside the recognized set `('url', 'playlist', 'multi_video')`. -/
theorem refresh_bare_video_aborts :
    refresh (fun _ _ => { type_ := none, url := some "v", ie_key := some "Youtube" })
      (fun s => s) 5 "https://start"
      = .error "Unsuported result_type: video" := rfl

/-- C7 amended: a bare `video` result (including an absent `_type`,
which defaults to `video`) is fatal for resolution: `extract_type`
aborts with "Unsuported result_type: video" — the recognized set is
exactly `('url', 'playlist', 'multi_video')` and does not include
`video`, so the loop never returns a no-entries tree for it. -/
theorem extract_type_video_fatal (extract : String → Option String → IEResult)
    (sanitize : String → String) (fuel : Nat) (r : IEResult)
    (h : r.type_.getD "video" = "video") :
    extract_type r = .error "Unsuported result_type: video" ∧
    refreshLoop extract sanitize fuel r
      = .error "Unsuported result_type: video" := by
  have he : extract_type r = .error "Unsuported result_type: video" := by
    simp [extract_type, h]
  exact ⟨he, refreshLoop_error extract sanitize fuel r _ he⟩

/-- Witness for the amended C7 at a concrete `_type`-less result. -/
theorem extract_type_video_fatal_witness :
    extract_type { type_ := none, url := some "v" }
      = .error "Unsuported result_type: video" ∧
    refreshLoop (fun _ _ => { type_ := some "playlist" }) (fun s => s) 5
        { type_ := none, url := some "v" }
      = .error "Unsuported result_type: video" :=
  extract_type_video_fatal (fun _ _ => { type_ := some "playlist" })
    (fun s => s) 5 { type_ := none, url := some "v" } (by decide)

end YoutubeDL

namespace YoutubeDL

-- sanity checks (concrete evaluations of the embedding)
example :
    (process_entries 0 [{ type_ := some "url", ie_key := some "Youtube", id := "a" }]).1
      = [{ type_ := some "url", ie_key := some "Youtube", id := "a",
           guid := some "yt:video:a" }] := by decide

example :
    process_entries 0
      [{ type_ := some "playlist", id := "x" },
       { type_ := some "url", ie_key := some "Youtube", id := "a" }]
      = ([], 1) := by decide

example :
    process_entries 2
      [{ type_ := some "url", ie_key := some "Youtube", id := "a" },
       { type_ := some "url", ie_key := some "Youtube", id := "a" },
       { type_ := some "url", ie_key := some "Youtube", id := "b" },
       { type_ := some "url", ie_key := some "Youtube", id := "c" }]
      = ([{ type_ := some "url", ie_key := some "Youtube", id := "a",
            guid := some "yt:video:a" },
          { type_ := some "url", ie_key := some "Youtube", id := "b",
            guid := some "yt:video:b" }], 3) := by decide

end YoutubeDL
